import Mathlib

/-!
Verification of the ingestion pipeline and query tool of
`spark-ollama-openwebui` (`ingest.py`, `openwebui_mcp.py`) against its
natural-language specification, via a shallow embedding of the relevant
Python functions.

Conventions of the embedding:
* wall-clock time is `Nat` (seconds); `time.time()` readings are threaded
  explicitly through the poll loop;
* an HTTP interaction is represented by the data the code extracts from it
  (status code class, parsed JSON fields); a call that `raise_for_status`es
  is a distinguished error outcome;
* Python string primitives that the code uses (`str.lower`, `str.split`,
  `str.startswith`) are modelled at the character-list level so that every
  definition evaluates inside the kernel.
-/

namespace SparkIngest

/-! ### Character-level models of the Python string primitives used -/

/-- Model of Python `str.lower()` (ASCII case folding, as used on file
suffixes and extension strings). -/
def pyLower (s : String) : String := ⟨s.data.map Char.toLower⟩

/-- Model of Python `s.startswith(pre)`. -/
def pyStartsWith (s pre : String) : Bool := pre.data.isPrefixOf s.data

def splitCommaAux : List Char → List Char → List String
  | [], acc => [⟨acc.reverse⟩]
  | c :: rest, acc =>
    if c == ',' then ⟨acc.reverse⟩ :: splitCommaAux rest []
    else splitCommaAux rest (c :: acc)

/-- Model of Python `s.split(",")` (note `"".split(",") == [""]`). -/
def pySplitComma (s : String) : List String := splitCommaAux s.data []

/-! ### Constants from `ingest.py` -/

/-- `POLL_INTERVAL = 2` — seconds between status checks. -/
def POLL_INTERVAL : Nat := 2

/-- `POLL_TIMEOUT = 120` — seconds before giving up on a single file. -/
def POLL_TIMEOUT : Nat := 120

/-- `DEFAULT_EXTENSIONS` — file types Open WebUI can extract text from. -/
def DEFAULT_EXTENSIONS : List String :=
  [".pdf", ".txt", ".md", ".rst", ".csv",
   ".docx", ".doc", ".xlsx", ".xls", ".pptx",
   ".html", ".htm", ".xml", ".json"]

/-! ### `wait_for_processing` (ingest.py lines 83–98)

The loop polls `GET /api/v1/files/{id}/process/status`.  One poll is
described by the wall-clock duration of the HTTP round trip and the
response observed; the schedule of a run is a finite list of such polls
(the real loop is bounded: each iteration advances time by at least
`POLL_INTERVAL`). -/

/-- What one response of the status endpoint looks like to the code:
a 404, a 2xx whose parsed body yields `r.json().get("status", "")`,
or any other non-2xx code (on which `raise_for_status` raises). -/
inductive StatusResp : Type
  | notFound : StatusResp
  | ok (status : String) : StatusResp
  | httpError (code : Nat) : StatusResp
deriving DecidableEq, Repr

/-- One scheduled poll: how long the HTTP call takes, and its response. -/
structure PollStep : Type where
  reqDur : Nat
  resp : StatusResp
deriving DecidableEq, Repr

/-- The possible outcomes of `wait_for_processing`: its two boolean
returns, the terminal reasons behind them, a propagated `HTTPError`, and
`pending` for a schedule too short to decide the run. -/
inductive WaitOutcome : Type
  | completed : WaitOutcome
  | assumedReady : WaitOutcome
  | failed : WaitOutcome
  | timedOut : WaitOutcome
  | raised (code : Nat) : WaitOutcome
  | pending : WaitOutcome
deriving DecidableEq, Repr

/-- The Python return value: `some true` / `some false` for the boolean
returns, `none` when the function raises (or the schedule ran out). -/
def WaitOutcome.toBool : WaitOutcome → Option Bool
  | .completed => some true
  | .assumedReady => some true
  | .failed => some false
  | .timedOut => some false
  | .raised _ => none
  | .pending => none

/-- The `while time.time() < deadline` loop of `wait_for_processing`,
transcribed clause by clause: 404 returns `True` immediately; other
non-2xx raises; `status == "completed"` returns `True`;
`status == "failed"` returns `False`; anything else sleeps
`POLL_INTERVAL` and re-polls; a guard failure returns `False`. -/
def pollLoop (deadline : Nat) : Nat → List PollStep → WaitOutcome
  | now, [] => if now < deadline then .pending else .timedOut
  | now, s :: rest =>
    if now < deadline then
      match s.resp with
      | .notFound => .assumedReady
      | .httpError c => .raised c
      | .ok st =>
        if st == "completed" then .completed
        else if st == "failed" then .failed
        else pollLoop deadline (now + s.reqDur + POLL_INTERVAL) rest
    else .timedOut

/-- `wait_for_processing`: computes `deadline = time.time() + POLL_TIMEOUT`
and runs the poll loop from the start time. -/
def wait_for_processing (start : Nat) (trace : List PollStep) : WaitOutcome :=
  pollLoop (start + POLL_TIMEOUT) start trace

/-! #### Spec-side state machine for the waiter (from spec §4.5) -/

/-- The states of the ProcessingWaiter state machine named by the spec:
`Polling → {Completed, Failed, TimedOut, AssumedReady}`; `wAborted`
represents the propagated `RemoteError` of a non-2xx, non-404 response. -/
inductive WaiterState : Type
  | polling : WaiterState
  | wCompleted : WaiterState
  | wFailed : WaiterState
  | wTimedOut : WaiterState
  | wAssumedReady : WaiterState
  | wAborted (code : Nat) : WaiterState
deriving DecidableEq, Repr

/-- Spec-side transition on one observed response (spec §4.5): 404 →
`AssumedReady`; other non-2xx aborts; `"completed"` → `Completed`;
`"failed"` → `Failed`; anything else remains `Polling`. -/
def waiterStep : StatusResp → WaiterState
  | .notFound => .wAssumedReady
  | .httpError c => .wAborted c
  | .ok st =>
    if st == "completed" then .wCompleted
    else if st == "failed" then .wFailed
    else .polling

/-- Spec-side run of the waiter machine: while `now < deadline`, take one
transition; a non-`polling` result is terminal, `polling` sleeps
`POLL_INTERVAL` and re-polls; when the deadline elapses the machine is in
`TimedOut`. -/
def waiterSpecRun (deadline : Nat) : Nat → List PollStep → WaiterState
  | now, [] => if now < deadline then .polling else .wTimedOut
  | now, s :: rest =>
    if now < deadline then
      match waiterStep s.resp with
      | .polling => waiterSpecRun deadline (now + s.reqDur + POLL_INTERVAL) rest
      | t => t
    else .wTimedOut

/-- Correspondence between spec states and code outcomes. -/
def specToOutcome : WaiterState → WaitOutcome
  | .polling => .pending
  | .wCompleted => .completed
  | .wFailed => .failed
  | .wTimedOut => .timedOut
  | .wAssumedReady => .assumedReady
  | .wAborted c => .raised c

/-! ### Knowledge collections -/

/-- One element of the collection listing: `{id, name}` (spec §3
`Collection`, §6 `GET /api/v1/knowledge/`). -/
structure KB : Type where
  id : String
  name : String
deriving DecidableEq, Repr

/-- The two well-formed shapes of the `GET /api/v1/knowledge/` response
body (spec §6): a raw JSON sequence of elements, or a JSON object whose
`items` field holds that sequence. -/
inductive ListingResponse : Type
  | raw (items : List KB) : ListingResponse
  | wrapped (items : List KB) : ListingResponse
deriving DecidableEq, Repr

/-- Spec-side accessor: the sequence of `{id, name}` elements a
well-formed listing response carries, per spec §6. -/
def specListingItems : ListingResponse → List KB
  | .raw items => items
  | .wrapped items => items

/-- `openwebui_mcp.py`'s extraction, used identically in
`list_collections` (line 53) and `rag_query` (line 79):
`data.get("items", data) if isinstance(data, dict) else data`. -/
def webuiExtractItems : ListingResponse → List KB
  | .raw items => items
  | .wrapped items => items

/-- `ingest.py`'s consumption of the same response
(`get_or_create_knowledge`, line 53): `for kb in r.json()` iterates the
body directly.  On the raw-sequence shape this yields the elements; on the
object shape Python iterates the dict's keys (strings), so the first
`kb.get("name")` raises `AttributeError` — modelled as `none`. -/
def ingestExtractItems : ListingResponse → Option (List KB)
  | .raw items => some items
  | .wrapped _ => none

/-- `list_collections` (openwebui_mcp.py lines 48–54): projects each
element of the extracted sequence to `{"id": kb["id"], "name": kb["name"]}`. -/
def list_collections (resp : ListingResponse) : List (String × String) :=
  (webuiExtractItems resp).map (fun kb => (kb.id, kb.name))

/-- The lookup loop of `get_or_create_knowledge` (and the generator
expression of `rag_query`): first element whose `name` equals the wanted
name, scanning in listing order. -/
def findKB (items : List KB) (name : String) : Option KB :=
  items.find? (fun kb => kb.name == name)

/-- `get_or_create_knowledge` (ingest.py lines 49–66), after the listing
has been obtained: return the first listed id whose name matches, else
issue one `POST /api/v1/knowledge/create` and return the id of its
response (`createId`).  The second component counts create calls. -/
def get_or_create_knowledge (items : List KB) (name : String)
    (createId : String) : String × Nat :=
  match findKB items name with
  | some kb => (kb.id, 0)
  | none => (createId, 1)

/-! ### `rag_query` (openwebui_mcp.py lines 57–99) -/

/-- Python `repr` of a string without special characters: wrapped in
single quotes. -/
def pyReprStr (s : String) : String := "\x27" ++ s ++ "\x27"

/-- Python `str` of a list of plain strings, as interpolated by the
f-string: `['a', 'b']`. -/
def pyReprList (names : List String) : String :=
  "[" ++ String.intercalate ", " (names.map pyReprStr) ++ "]"

/-- The not-found message of `rag_query` (line 86):
`f"Collection '{collection_name}' not found. Available: {available}"`. -/
def notFoundMsg (name : String) (avail : List String) : String :=
  "Collection " ++ pyReprStr name ++ " not found. Available: " ++ pyReprList avail

/-- Everything observable about one `rag_query` call: the returned string,
how many `POST /api/chat/completions` calls were made, the collection id
the completion request was scoped to (its `files` field), and the question
forwarded as the user message. -/
structure RagResult : Type where
  text : String
  completionCalls : Nat
  scopedId : Option String
  sentQuestion : Option String
deriving DecidableEq, Repr

/-- `rag_query`: extract the listing, resolve name → id by first match;
on a miss return the not-found message listing the available names (no
completion call); on a hit post one completion request scoped to the
matched id and return `choices[0].message.content` of its response
(`completionContent`). -/
def rag_query (resp : ListingResponse) (question collName : String)
    (completionContent : String) : RagResult :=
  let collections := webuiExtractItems resp
  match findKB collections collName with
  | none =>
    ⟨notFoundMsg collName (collections.map KB.name), 0, none, none⟩
  | some kb => ⟨completionContent, 1, some kb.id, some question⟩

/-! ### Extension set and catalog filter (ingest.py lines 110–114, 138–140) -/

/-- `e if e.startswith(".") else f".{e}"` — dot-prefix a user-supplied
extension that lacks the dot (no case normalisation happens here). -/
def normalizeExt (e : String) : String :=
  if pyStartsWith e "." then e else "." ++ e

/-- The effective extension set of a run (ingest.py lines 138–140):
start from `DEFAULT_EXTENSIONS`; when `--ext` was given and non-empty
(`if args.ext:`), union in the dot-prefixed comma-separated additions.
`ext = ""` models an absent or empty `--ext`. -/
def effectiveExtensions (ext : String) : List String :=
  if ext = "" then DEFAULT_EXTENSIONS
  else DEFAULT_EXTENSIONS ++ (pySplitComma ext).map normalizeExt

/-- What the catalog filter inspects about a directory entry: whether it
is a regular file (`p.is_file()`) and its suffix (`p.suffix`, last
dot-extension including the dot, `""` when none). -/
structure FsEntry : Type where
  isRegularFile : Bool
  suffix : String
deriving DecidableEq, Repr

/-- The membership test of `collect_files` (ingest.py line 113):
`p.is_file() and p.suffix.lower() in extensions`. -/
def matchesCatalog (exts : List String) (f : FsEntry) : Bool :=
  f.isRegularFile && exts.contains (pyLower f.suffix)

/-! ### The catalog phase of `main` (ingest.py lines 143–152)

After root validation and the credential check, `main` collects the
catalog; an empty catalog hits `sys.exit(f"No supported files found…")`
— Python exits with status 1 when `sys.exit` is given a string — before
the `--dry-run` branch; a non-empty catalog is printed, and a dry run
then returns from `main` (process exit status 0).  No network call has
happened yet in any of these paths. -/

/-- Observable outcome of the catalog phase: process exit status, number
of network calls performed, and the catalog entries listed on stdout. -/
structure MainOutcome : Type where
  exitCode : Nat
  netCalls : Nat
  listed : List String
deriving DecidableEq, Repr

/-- The catalog phase of `main`: `none` means execution continues into
the network phase (upload pipeline). -/
def catalogPhase (files : List String) (dryRun : Bool) : Option MainOutcome :=
  if files = [] then some ⟨1, 0, []⟩
  else if dryRun then some ⟨0, 0, files⟩
  else none

/-! ### BatchOrchestrator: the per-file loop of `main` (ingest.py 162–185) -/

/-- Outcome of one step against the backend: the value the call returns,
or the exception (`requests.HTTPError` or other) it raises, carried as a
message. -/
inductive StepResult (α : Type) : Type
  | ok (val : α) : StepResult α
  | err (msg : String) : StepResult α
deriving DecidableEq, Repr

/-- The environment one catalog entry meets: what `upload_file` does
(returns a file id or raises), what `wait_for_processing` does (returns a
bool or raises), and what `add_to_knowledge` does (returns or raises). -/
structure EntryEnv : Type where
  upload : StepResult String
  wait : StepResult Bool
  attach : StepResult Unit
deriving DecidableEq, Repr

/-- The loop state: the two counters plus the file ids passed to
`add_to_knowledge`, in call order. -/
structure BatchState : Type where
  succeeded : Nat
  failed : Nat
  attachCalls : List String
deriving DecidableEq, Repr

/-- One iteration of the `for i, path in enumerate(files, 1)` loop: the
`try` block runs upload → wait → attach and then `succeeded += 1`; any
exception from any step is caught by the two `except` arms and runs
`failed += 1`.  A `False` from the wait is not an exception — the code
proceeds to `add_to_knowledge` regardless of the boolean.  The attach
call is recorded whenever `add_to_knowledge` is invoked, whether or not
it then raises. -/
def stepEntry (st : BatchState) (env : EntryEnv) : BatchState :=
  match env.upload with
  | .err _ => { st with failed := st.failed + 1 }
  | .ok fid =>
    match env.wait with
    | .err _ => { st with failed := st.failed + 1 }
    | .ok _ =>
      match env.attach with
      | .err _ =>
        { st with failed := st.failed + 1, attachCalls := st.attachCalls ++ [fid] }
      | .ok _ =>
        { st with succeeded := st.succeeded + 1,
                  attachCalls := st.attachCalls ++ [fid] }

/-- The whole batch loop, started from `succeeded, failed = 0, 0`. -/
def batchRun (envs : List EntryEnv) : BatchState :=
  envs.foldl stepEntry ⟨0, 0, []⟩

/-- Entry fails at the upload step (its `upload_file` raises). -/
def uploadFailed (env : EntryEnv) : Bool :=
  match env.upload with
  | .err _ => true
  | .ok _ => false

/-- The file id an entry's upload returns, when it returns one. -/
def uploadedId (env : EntryEnv) : Option String :=
  match env.upload with
  | .ok fid => some fid
  | .err _ => none

/-- All three steps of an entry succeed (upload returns an id, the wait
returns a boolean, the attach returns). -/
def entryAllOk (env : EntryEnv) : Prop :=
  (∃ fid, env.upload = .ok fid) ∧ (∃ b, env.wait = .ok b) ∧ env.attach = .ok ()

end SparkIngest

namespace SparkIngest

theorem pollLoop_eq_spec (trace : List PollStep) :
    ∀ deadline now : Nat,
      pollLoop deadline now trace
        = specToOutcome (waiterSpecRun deadline now trace) := by
  induction trace with
  | nil =>
    intro deadline now
    by_cases h : now < deadline <;> simp [pollLoop, waiterSpecRun, h, specToOutcome]
  | cons s rest ih =>
    intro deadline now
    by_cases h : now < deadline
    · cases hr : s.resp with
      | notFound => simp [pollLoop, waiterSpecRun, h, hr, waiterStep, specToOutcome]
      | httpError c => simp [pollLoop, waiterSpecRun, h, hr, waiterStep, specToOutcome]
      | ok st =>
        by_cases hc : st == "completed"
        · simp [pollLoop, waiterSpecRun, h, hr, waiterStep, hc, specToOutcome]
        · by_cases hf : st == "failed"
          · simp [pollLoop, waiterSpecRun, h, hr, waiterStep, hc, hf, specToOutcome]
          · simp [pollLoop, waiterSpecRun, h, hr, waiterStep, hc, hf, ih]
    · simp [pollLoop, waiterSpecRun, h, specToOutcome]

/-- C1: `wait_for_processing` agrees with the spec's polling state
machine: its result is the image of the machine's final state, so it
returns `True` exactly on `Completed` (a 2xx whose status field is
`"completed"`) or `AssumedReady` (a 404, success on that very poll),
returns `False` exactly on `Failed` (2xx status `"failed"`) or `TimedOut`
(deadline `start + POLL_TIMEOUT` elapsed with no terminal status), and on
any other 2xx status stays in `Polling`, with the next poll happening
`POLL_INTERVAL` seconds after the current one finishes. -/
theorem wait_for_processing_refines_waiter (start : Nat) (trace : List PollStep) :
    wait_for_processing start trace
        = specToOutcome (waiterSpecRun (start + POLL_TIMEOUT) start trace)
    ∧ ((wait_for_processing start trace).toBool = some true ↔
        (waiterSpecRun (start + POLL_TIMEOUT) start trace = .wCompleted ∨
         waiterSpecRun (start + POLL_TIMEOUT) start trace = .wAssumedReady))
    ∧ ((wait_for_processing start trace).toBool = some false ↔
        (waiterSpecRun (start + POLL_TIMEOUT) start trace = .wFailed ∨
         waiterSpecRun (start + POLL_TIMEOUT) start trace = .wTimedOut)) := by
  have h := pollLoop_eq_spec trace (start + POLL_TIMEOUT) start
  refine ⟨h, ?_, ?_⟩ <;>
    · rw [wait_for_processing, h]
      cases waiterSpecRun (start + POLL_TIMEOUT) start trace <;>
        simp [specToOutcome, WaitOutcome.toBool]

theorem find?_first {α : Type} (p : α → Bool) (pre post : List α) (x : α)
    (hpre : ∀ y ∈ pre, p y = false) (hx : p x = true) :
    (pre ++ x :: post).find? p = some x := by
  induction pre with
  | nil => simp [List.find?_cons, hx]
  | cons a tl ih =>
    have ha : p a = false := hpre a (by simp)
    simp only [List.cons_append, List.find?_cons, ha]
    exact ih (fun y hy => hpre y (by simp [hy]))

theorem findKB_none (items : List KB) (name : String)
    (h : ∀ kb ∈ items, kb.name ≠ name) : findKB items name = none := by
  rw [findKB, List.find?_eq_none]
  intro kb hkb
  simp [h kb hkb]

/-- C3: `get_or_create_knowledge` looks up before creating: when some
listed collection's name equals the requested name exactly, it returns a
matching element's id with zero create calls; when none matches, it
issues exactly one create call and returns the id that call reports. -/
theorem get_or_create_lookup_before_create (items : List KB)
    (name createId : String) :
    ((∃ kb ∈ items, kb.name = name) →
      (get_or_create_knowledge items name createId).2 = 0 ∧
      ∃ kb ∈ items, kb.name = name ∧
        (get_or_create_knowledge items name createId).1 = kb.id)
    ∧ ((∀ kb ∈ items, kb.name ≠ name) →
      get_or_create_knowledge items name createId = (createId, 1)) := by
  constructor
  · rintro ⟨kb, hmem, hname⟩
    cases hfind : findKB items name with
    | none =>
      rw [findKB, List.find?_eq_none] at hfind
      exact absurd (by simp [hname]) (hfind kb hmem)
    | some kb' =>
      have hmem' : kb' ∈ items := List.mem_of_find?_eq_some hfind
      have hname' : kb'.name = name := by
        have := List.find?_some hfind
        simpa using this
      refine ⟨?_, kb', hmem', hname', ?_⟩ <;>
        simp [get_or_create_knowledge, hfind]
  · intro h
    simp [get_or_create_knowledge, findKB_none items name h]

/-- Witness for C3 at concrete inputs: a listing already containing
"docs" yields zero creates; an empty listing yields one create returning
the create response's id. -/
theorem get_or_create_lookup_before_create_witness :
    (get_or_create_knowledge [⟨"k1", "docs"⟩] "docs" "k9").2 = 0
    ∧ get_or_create_knowledge [] "docs" "k9" = ("k9", 1) := by
  constructor
  · exact ((get_or_create_lookup_before_create [⟨"k1", "docs"⟩] "docs" "k9").1
      ⟨⟨"k1", "docs"⟩, by simp, rfl⟩).1
  · exact (get_or_create_lookup_before_create [] "docs" "k9").2 (by simp)

/-- C7 counterexample: on the object-with-`items` response shape, which
the spec declares well-formed, `get_or_create_knowledge`'s `for kb in
r.json()` iterates the dict's keys and raises — it does not extract the
sequence of elements. -/
theorem ingest_wrapped_listing_mishandled :
    ingestExtractItems (ListingResponse.wrapped [⟨"i1", "docs"⟩]) ≠
      some (specListingItems (ListingResponse.wrapped [⟨"i1", "docs"⟩])) := by
  simp [ingestExtractItems, specListingItems]

/-- C7 amended: the query tool's two consumers (`list_collections` and
`rag_query`) extract the `{id, name}` sequence from both well-formed
response shapes; the ingestion's collection resolution extracts it only
from the raw-sequence shape and fails on the object shape. -/
theorem listing_extraction_by_consumer (resp : ListingResponse)
    (items : List KB) :
    webuiExtractItems resp = specListingItems resp
    ∧ list_collections resp
        = (specListingItems resp).map (fun kb => (kb.id, kb.name))
    ∧ ingestExtractItems (ListingResponse.raw items) = some items
    ∧ ingestExtractItems (ListingResponse.wrapped items) = none := by
  cases resp <;>
    simp [webuiExtractItems, specListingItems, list_collections, ingestExtractItems]

/-- C8: when no listed collection bears the requested name, `rag_query`
returns (rather than raises) the not-found message built from the names
that do exist, issuing zero chat-completion calls; when a match exists it
issues one completion call scoped to the matched collection's id,
forwarding the question, and returns the response's message content. -/
theorem rag_query_not_found_and_forward (resp : ListingResponse)
    (q collName content : String) :
    ((∀ kb ∈ webuiExtractItems resp, kb.name ≠ collName) →
      rag_query resp q collName content
        = ⟨notFoundMsg collName ((webuiExtractItems resp).map KB.name),
            0, none, none⟩)
    ∧ (∀ kb, findKB (webuiExtractItems resp) collName = some kb →
        rag_query resp q collName content = ⟨content, 1, some kb.id, some q⟩) := by
  constructor
  · intro h
    simp [rag_query, findKB_none _ _ h]
  · intro kb hkb
    simp [rag_query, hkb]

/-- Witness for C8 at concrete inputs: a backend without "docs" yields
the not-found message listing "alpha" and no completion call; a backend
with "docs" yields one completion call scoped to its id. -/
theorem rag_query_not_found_and_forward_witness :
    rag_query (ListingResponse.raw [⟨"k1", "alpha"⟩]) "q" "docs" "ans"
      = ⟨notFoundMsg "docs" ["alpha"], 0, none, none⟩
    ∧ rag_query (ListingResponse.raw [⟨"k1", "docs"⟩]) "q" "docs" "ans"
      = ⟨"ans", 1, some "k1", some "q"⟩ := by
  constructor
  · exact (rag_query_not_found_and_forward
      (ListingResponse.raw [⟨"k1", "alpha"⟩]) "q" "docs" "ans").1 (by decide)
  · exact (rag_query_not_found_and_forward
      (ListingResponse.raw [⟨"k1", "docs"⟩]) "q" "docs" "ans").2
      ⟨"k1", "docs"⟩ (by decide)

/-- C10: with duplicate names in the listing, both name lookups — the
ingestion's collection resolution and `rag_query`'s name-to-id
resolution — select the first matching element in listing order,
ignoring later duplicates. -/
theorem first_match_wins (pre post : List KB) (kb : KB)
    (name createId q content : String)
    (hkb : kb.name = name) (hpre : ∀ x ∈ pre, x.name ≠ name) :
    get_or_create_knowledge (pre ++ kb :: post) name createId = (kb.id, 0)
    ∧ rag_query (ListingResponse.raw (pre ++ kb :: post)) q name content
        = ⟨content, 1, some kb.id, some q⟩ := by
  have hfind : findKB (pre ++ kb :: post) name = some kb := by
    refine find?_first _ pre post kb (fun y hy => ?_) (by simp [hkb])
    simp [hpre y hy]
  constructor
  · simp [get_or_create_knowledge, hfind]
  · simp [rag_query, webuiExtractItems, hfind]

/-- Witness for C10 at a concrete duplicated listing: the element with
id "b" precedes the duplicate with id "c", and both lookups return "b". -/
theorem first_match_wins_witness :
    get_or_create_knowledge
        ([⟨"a", "x"⟩] ++ (⟨"b", "docs"⟩ : KB) :: [⟨"c", "docs"⟩]) "docs" "new"
      = ("b", 0)
    ∧ rag_query
        (ListingResponse.raw
          ([⟨"a", "x"⟩] ++ (⟨"b", "docs"⟩ : KB) :: [⟨"c", "docs"⟩]))
        "q" "docs" "ans"
      = ⟨"ans", 1, some "b", some "q"⟩ :=
  first_match_wins [⟨"a", "x"⟩] [⟨"c", "docs"⟩] ⟨"b", "docs"⟩
    "docs" "new" "q" "ans" rfl (by decide)

theorem filter_length_partition {α : Type} (p : α → Bool) (l : List α) :
    (l.filter p).length + (l.filter (fun a => !p a)).length = l.length := by
  induction l with
  | nil => simp
  | cons a tl ih => cases hp : p a <;> simp [List.filter_cons, hp] <;> omega

theorem batch_go (envs : List EntryEnv) :
    ∀ st : BatchState,
      (∀ env ∈ envs, uploadFailed env = true ∨ entryAllOk env) →
      (envs.foldl stepEntry st).failed
          = st.failed + (envs.filter uploadFailed).length
      ∧ (envs.foldl stepEntry st).succeeded
          = st.succeeded + (envs.filter (fun e => !uploadFailed e)).length
      ∧ (envs.foldl stepEntry st).attachCalls
          = st.attachCalls ++ envs.filterMap uploadedId := by
  induction envs with
  | nil => intro st _; simp
  | cons env rest ih =>
    intro st h
    have hrest := fun e he => h e (List.mem_cons_of_mem _ he)
    rcases h env (List.mem_cons_self _ _) with hf | hok
    · obtain ⟨m, hm⟩ : ∃ m, env.upload = .err m := by
        unfold uploadFailed at hf
        cases hu : env.upload <;> simp [hu] at hf ⊢
      obtain ⟨h1, h2, h3⟩ := ih { st with failed := st.failed + 1 } hrest
      refine ⟨?_, ?_, ?_⟩ <;>
        · simp [List.foldl_cons, stepEntry, hm, List.filter_cons, hf,
            uploadFailed, uploadedId, h1, h2, h3]
          try omega
    · obtain ⟨⟨fid, hu⟩, ⟨b, hw⟩, ha⟩ := hok
      have hnf : uploadFailed env = false := by simp [uploadFailed, hu]
      obtain ⟨h1, h2, h3⟩ := ih
        { st with succeeded := st.succeeded + 1,
                  attachCalls := st.attachCalls ++ [fid] } hrest
      refine ⟨?_, ?_, ?_⟩ <;>
        · simp [List.foldl_cons, stepEntry, hu, hw, ha, List.filter_cons, hnf,
            uploadedId, h1, h2, h3]
          try omega

/-- C2: a batch of N entries in which exactly the upload-failing entries
fail (all steps of the others succeed) is processed end to end in catalog
order: the summary counts `failed = K` and `succeeded = N - K`, and
exactly the non-failing entries' file ids are passed to
`add_to_knowledge`, once each, in order. -/
theorem batch_isolates_upload_failures (envs : List EntryEnv)
    (h : ∀ env ∈ envs, uploadFailed env = true ∨ entryAllOk env) :
    (batchRun envs).failed = (envs.filter uploadFailed).length
    ∧ (batchRun envs).succeeded
        = envs.length - (envs.filter uploadFailed).length
    ∧ (batchRun envs).attachCalls = envs.filterMap uploadedId := by
  obtain ⟨h1, h2, h3⟩ := batch_go envs ⟨0, 0, []⟩ h
  have hpart := filter_length_partition uploadFailed envs
  refine ⟨?_, ?_, ?_⟩ <;> simp [batchRun] at h1 h2 h3 ⊢ <;>
    first
      | omega
      | exact h3

/-- Witness for C2: two entries, the first failing at upload, the second
succeeding throughout; the summary is one failed, one succeeded, and only
the second entry's file id reaches `add_to_knowledge`. -/
theorem batch_isolates_upload_failures_witness :
    (batchRun [⟨.err "boom", .ok true, .ok ()⟩, ⟨.ok "f1", .ok true, .ok ()⟩]).failed
        = ([(⟨.err "boom", .ok true, .ok ()⟩ : EntryEnv),
            ⟨.ok "f1", .ok true, .ok ()⟩].filter uploadFailed).length
    ∧ (batchRun [⟨.err "boom", .ok true, .ok ()⟩, ⟨.ok "f1", .ok true, .ok ()⟩]).succeeded
        = [(⟨.err "boom", .ok true, .ok ()⟩ : EntryEnv),
            ⟨.ok "f1", .ok true, .ok ()⟩].length
          - ([(⟨.err "boom", .ok true, .ok ()⟩ : EntryEnv),
              ⟨.ok "f1", .ok true, .ok ()⟩].filter uploadFailed).length
    ∧ (batchRun [⟨.err "boom", .ok true, .ok ()⟩, ⟨.ok "f1", .ok true, .ok ()⟩]).attachCalls
        = [(⟨.err "boom", .ok true, .ok ()⟩ : EntryEnv),
            ⟨.ok "f1", .ok true, .ok ()⟩].filterMap uploadedId := by
  refine batch_isolates_upload_failures _ ?_
  intro env henv
  simp only [List.mem_cons, List.mem_singleton, List.not_mem_nil,
    or_false] at henv
  rcases henv with rfl | rfl
  · left; rfl
  · right; exact ⟨⟨"f1", rfl⟩, ⟨true, rfl⟩, rfl⟩

/-- C4: an entry whose upload succeeded and whose wait returned `False`
(processing failed or timed out) is not treated as an error: the file id
is still passed to `add_to_knowledge`, and when that attach call succeeds
the entry is counted in `succeeded`, not in `failed`. -/
theorem false_wait_still_attaches (st : BatchState) (fid : String)
    (ares : StepResult Unit) :
    (stepEntry st ⟨.ok fid, .ok false, ares⟩).attachCalls
        = st.attachCalls ++ [fid]
    ∧ stepEntry st ⟨.ok fid, .ok false, .ok ()⟩
        = ⟨st.succeeded + 1, st.failed, st.attachCalls ++ [fid]⟩ := by
  cases ares <;> simp [stepEntry]

theorem stepEntry_one_counter (st : BatchState) (env : EntryEnv) :
    (stepEntry st env).succeeded + (stepEntry st env).failed
      = st.succeeded + st.failed + 1 := by
  rcases env with ⟨u, w, a⟩
  cases u <;> cases w <;> cases a <;> simp [stepEntry] <;> omega

theorem batch_sum_go (envs : List EntryEnv) :
    ∀ st : BatchState,
      (envs.foldl stepEntry st).succeeded + (envs.foldl stepEntry st).failed
        = st.succeeded + st.failed + envs.length := by
  induction envs with
  | nil => intro st; simp
  | cons env rest ih =>
    intro st
    rw [List.foldl_cons, ih (stepEntry st env)]
    rw [stepEntry_one_counter]
    simp
    omega

/-- C9: every entry of the batch increments exactly one of the two
counters, so after any prefix of k entries `succeeded + failed` equals
the number of entries processed so far, and after the whole loop it
equals N. -/
theorem batch_counters_partition (envs : List EntryEnv) :
    (∀ k : Nat,
      (batchRun (envs.take k)).succeeded + (batchRun (envs.take k)).failed
        = min k envs.length)
    ∧ (batchRun envs).succeeded + (batchRun envs).failed = envs.length := by
  have hmain : ∀ l : List EntryEnv,
      (batchRun l).succeeded + (batchRun l).failed = l.length := by
    intro l
    simpa [batchRun] using batch_sum_go l ⟨0, 0, []⟩
  exact ⟨fun k => by simpa [List.length_take] using hmain (envs.take k),
    hmain envs⟩

/-- C5 counterexample: with the user addition `LOG`, the effective set
contains the member `.LOG`, which is not lower-cased — and consequently a
regular file with suffix `.LOG` (or `.log`) does not match the catalog
filter, though the claim's lower-cased union would admit it. -/
theorem extension_addition_not_lowercased :
    (".LOG" ∈ effectiveExtensions "LOG" ∧ pyLower ".LOG" ≠ ".LOG")
    ∧ matchesCatalog (effectiveExtensions "LOG") ⟨true, ".LOG"⟩ = false := by
  refine ⟨⟨?_, ?_⟩, ?_⟩ <;> decide

/-- C5 amended: the effective set is the union of the built-in defaults
and the user-supplied additions dot-prefixed but kept in their original
case (no lower-casing of additions); a file matches the catalog filter
exactly when it is a regular file whose lower-cased suffix is a member of
this set. -/
theorem extension_set_composition (ext : String) (f : FsEntry) :
    (∀ e, e ∈ effectiveExtensions ext ↔
      (e ∈ DEFAULT_EXTENSIONS ∨
        (ext ≠ "" ∧ ∃ raw ∈ pySplitComma ext, normalizeExt raw = e)))
    ∧ (∀ raw, pyStartsWith raw "." = false → normalizeExt raw = "." ++ raw)
    ∧ (∀ raw, pyStartsWith raw "." = true → normalizeExt raw = raw)
    ∧ (matchesCatalog (effectiveExtensions ext) f = true ↔
        (f.isRegularFile = true ∧
          pyLower f.suffix ∈ effectiveExtensions ext)) := by
  refine ⟨?_, ?_, ?_, ?_⟩
  · intro e
    by_cases hext : ext = "" <;> simp [effectiveExtensions, hext]
  · intro raw hr; simp [normalizeExt, hr]
  · intro raw hr; simp [normalizeExt, hr]
  · simp [matchesCatalog, Bool.and_eq_true, List.elem_iff]

/-- Witness for C5: the addition `log` enters the set as `.log`;
dot-prefixing is applied to a dotless addition; a regular `.PDF` file
matches under the default set via its lower-cased suffix. -/
theorem extension_set_composition_witness :
    ".log" ∈ effectiveExtensions "log"
    ∧ normalizeExt "log" = "." ++ "log"
    ∧ matchesCatalog (effectiveExtensions "") ⟨true, ".PDF"⟩ = true := by
  refine ⟨?_, ?_, ?_⟩
  · exact ((extension_set_composition "log" ⟨true, ""⟩).1 ".log").mpr
      (Or.inr ⟨by decide, "log", by decide, by decide⟩)
  · exact (extension_set_composition "log" ⟨true, ""⟩).2.1 "log" (by decide)
  · exact ((extension_set_composition "" ⟨true, ".PDF"⟩).2.2.2).mpr
      ⟨rfl, by decide⟩

/-- C6 counterexample: a dry run over a valid root whose catalog is empty
does not exit 0 — `main` hits `sys.exit("No supported files found…")`
(process status 1) before the dry-run branch, listing nothing (it does
perform zero network calls). -/
theorem dry_run_empty_catalog_exits_nonzero :
    catalogPhase [] true = some ⟨1, 0, []⟩
    ∧ (catalogPhase [] true).map MainOutcome.exitCode ≠ some 0 := by
  refine ⟨rfl, ?_⟩; decide

/-- C6 amended: a dry run over a valid root with a non-empty catalog
lists the catalog entries, performs zero network calls, and exits with
status 0; an empty catalog instead exits with status 1 (still with zero
network calls) before the dry-run branch is reached. -/
theorem dry_run_lists_catalog_and_exits_zero (files : List String)
    (hne : files ≠ []) :
    catalogPhase files true = some ⟨0, 0, files⟩
    ∧ catalogPhase [] true = some ⟨1, 0, []⟩ := by
  exact ⟨by simp [catalogPhase, hne], rfl⟩

/-- Witness for C6 at a concrete two-file catalog. -/
theorem dry_run_lists_catalog_and_exits_zero_witness :
    catalogPhase ["a.txt", "b.pdf"] true = some ⟨0, 0, ["a.txt", "b.pdf"]⟩
    ∧ catalogPhase [] true = some ⟨1, 0, []⟩ :=
  dry_run_lists_catalog_and_exits_zero ["a.txt", "b.pdf"] (by decide)

end SparkIngest
